import Mathlib

/-!
Verification of `owl_import_csv.py`, a batch importer that reads accident
cases from a CSV file, groups multi-row records into `AccidentCase` values,
validates references against the individuals of an existing OWL graph and
adds triples for each new case to the in-memory graph.

The embedding below follows the Python source function by function.
Python strings are Lean `String`s, Python `None` for optional string values
is `Option String`, raised exceptions are `Except.error` (or a `some` error
component on the mutable-graph operations), and the rdflib graph is a list
of string triples extended by appending.  The fuzzywuzzy library function
`process.extractOne` is external to the repository and is modelled as an
explicit function parameter `extractOne`.
-/

/-- Python's substring test `needle in hay` on strings. -/
def pyIn (needle hay : String) : Bool :=
  decide (needle.data <:+: hay.data)

/-- Python's `str.strip()`: remove leading and trailing whitespace. -/
def pyStrip (s : String) : String :=
  String.mk (((s.data.dropWhile Char.isWhitespace).reverse.dropWhile Char.isWhitespace).reverse)

/-- Python's `a or b` on optional strings: the first operand when it is a
truthy (non-empty) string, otherwise the second operand. -/
def pyOr : Option String → Option String → Option String
  | some s, b => if s = "" then b else some s
  | none, b => b

/-- Python's `str.lower()` on the ASCII degree strings of the data. -/
def pyLower (s : String) : String :=
  String.mk (s.data.map Char.toLower)

/-- Python's `text.split(sep)` for a one-character separator: split at every
occurrence of the separator, keeping empty pieces. -/
def splitOnChar (sep : Char) : List Char → List (List Char)
  | [] => [[]]
  | c :: rest =>
      let r := splitOnChar sep rest
      if c = sep then [] :: r
      else
        match r with
        | [] => [[c]]
        | x :: xs => (c :: x) :: xs

/-- `snake_case` from the source: `'_'.join(text.split(' '))`. -/
def snake_case (text : String) : String :=
  String.mk (List.intercalate ['_'] (splitOnChar ' ' text.data))

/-- `fix_cause` from the source: the correction table is commented out, so it
only snake-cases its argument. -/
def fix_cause (cause : String) : String :=
  snake_case cause

/-- The `AccidentCase` dataclass.  `date` is an `Option String` because
`row.get('Date') or row.get(' Date')` can evaluate to Python `None`. -/
structure AccidentCase where
  source : String
  title : String
  description : String
  date : Option String
  type : String
  degree : String
  case_number : String
  causes : List String := []
  equipments : List String := []
deriving DecidableEq

/-- `AccidentCase.uri`: the sso namespace followed by the case number. -/
def AccidentCase.uri (c : AccidentCase) : String :=
  "http://www.semanticweb.org/lanre/ontologies/sso#" ++ c.case_number

/-- `AccidentCase.normalized_degree`: substring-match the free-text degree;
raising `ValueError` is modelled as `Except.error`. -/
def AccidentCase.normalized_degree (c : AccidentCase) : Except String String :=
  if pyIn "nonfatal" c.degree || pyIn "non-fatal" c.degree then
    Except.ok "non_fatal_injury"
  else if pyIn "fatal" c.degree then
    Except.ok "fatal_injury"
  else
    Except.error "Could not find degree of injury"

/-- `AccidentCase.fixed_causes`: apply `fix_cause` to every recorded cause. -/
def AccidentCase.fixed_causes (c : AccidentCase) : List String :=
  c.causes.map fix_cause

/-- One CSV row as produced by `csv.DictReader`.  `dateCol` and
`spaceDateCol` model `row.get('Date')` and `row.get(' Date')`: `none` means
the column is absent from the file. -/
structure Row where
  source : String
  accidentType : String
  title : String
  description : String
  dateCol : Option String
  spaceDateCol : Option String
  degreeOfInjury : String
  caseNumber : String
  accidentCause : String
  equipment : String
deriving DecidableEq

/-- The `AccidentCase(...)` constructor call in `read_csv_cases`, applied to a
row whose `Source` value is populated. -/
def mkCase (row : Row) : AccidentCase :=
  { source := row.source
    title := row.title
    description := row.description
    date := pyOr row.dateCol row.spaceDateCol
    type := row.accidentType
    degree := row.degreeOfInjury
    case_number := row.caseNumber
    causes := []
    equipments := [] }

/-- `cases[-1].causes.append(cause)`: Python raises `IndexError` on an empty
list, otherwise the last element's cause list grows. -/
def appendCause (cases : List AccidentCase) (cause : String) :
    Except String (List AccidentCase) :=
  match cases.getLast? with
  | none => Except.error "IndexError: list index out of range"
  | some last =>
      Except.ok (cases.dropLast ++ [{ last with causes := last.causes ++ [cause] }])

/-- `cases[-1].equipments.append(equipment)`, analogous to `appendCause`. -/
def appendEquipment (cases : List AccidentCase) (equipment : String) :
    Except String (List AccidentCase) :=
  match cases.getLast? with
  | none => Except.error "IndexError: list index out of range"
  | some last =>
      Except.ok (cases.dropLast ++ [{ last with equipments := last.equipments ++ [equipment] }])

/-- The unconditional tail of the `read_csv_cases` loop body: append the
row's stripped non-empty cause and equipment values to the last case. -/
def processCE (cases : List AccidentCase) (row : Row) :
    Except String (List AccidentCase) :=
  let afterCause : Except String (List AccidentCase) :=
    if pyStrip row.accidentCause ≠ "" then appendCause cases (pyStrip row.accidentCause)
    else Except.ok cases
  match afterCause with
  | Except.error e => Except.error e
  | Except.ok cases2 =>
      if pyStrip row.equipment ≠ "" then appendEquipment cases2 (pyStrip row.equipment)
      else Except.ok cases2

/-- One iteration of the `read_csv_cases` loop: a populated `Source` value
starts a new case, then the cause and equipment fields of the row are
processed. -/
def processRow (cases : List AccidentCase) (row : Row) :
    Except String (List AccidentCase) :=
  if row.source ≠ "" then processCE (cases ++ [mkCase row]) row
  else processCE cases row

/-- `read_csv_cases`: fold the loop body over the data rows. -/
def read_csv_cases (rows : List Row) : Except String (List AccidentCase) :=
  List.foldlM processRow [] rows

/-- Bind-reduction for `Except` on an `ok` value. -/
theorem except_ok_bind {α β : Type} (a : α) (f : α → Except String β) :
    (Except.ok a >>= f : Except String β) = f a := rfl

/-- Bind-reduction for `Except` on an `error` value. -/
theorem except_error_bind {α β : Type} (e : String) (f : α → Except String β) :
    (Except.error e >>= f : Except String β) = Except.error e := rfl

/-- Unfolding lemma for `pyIn`. -/
theorem pyIn_eq_true_iff {needle hay : String} :
    pyIn needle hay = true ↔ needle.data <:+: hay.data := by
  simp [pyIn]

/-- A string containing `nonfatal` contains `fatal`. -/
theorem pyIn_fatal_of_nonfatal {d : String} (h : pyIn "nonfatal" d = true) :
    pyIn "fatal" d = true := by
  rw [pyIn_eq_true_iff] at h ⊢
  exact List.IsInfix.trans (by decide) h

/-- A string containing `non-fatal` contains `fatal`. -/
theorem pyIn_fatal_of_hyphen_nonfatal {d : String} (h : pyIn "non-fatal" d = true) :
    pyIn "fatal" d = true := by
  rw [pyIn_eq_true_iff] at h ⊢
  exact List.IsInfix.trans (by decide) h

/-- A fixed accident case used to evaluate `normalized_degree` at concrete
degree strings. -/
def degCase (d : String) : AccidentCase :=
  { source := ""
    title := ""
    description := ""
    date := some ""
    type := ""
    degree := d
    case_number := "" }

/-- C5: `normalized_degree` returns `non_fatal_injury` when the degree
contains `nonfatal` or `non-fatal`, returns `fatal_injury` when it contains
`fatal` but neither of those, and errors exactly when none of the three
substrings is present. -/
theorem normalized_degree_characterization (c : AccidentCase) :
    ((pyIn "nonfatal" c.degree = true ∨ pyIn "non-fatal" c.degree = true) →
        c.normalized_degree = Except.ok "non_fatal_injury") ∧
    ((pyIn "fatal" c.degree = true ∧ pyIn "nonfatal" c.degree = false ∧
        pyIn "non-fatal" c.degree = false) →
        c.normalized_degree = Except.ok "fatal_injury") ∧
    ((∃ e, c.normalized_degree = Except.error e) ↔
        (pyIn "nonfatal" c.degree = false ∧ pyIn "non-fatal" c.degree = false ∧
         pyIn "fatal" c.degree = false)) := by
  unfold AccidentCase.normalized_degree
  by_cases h1 : pyIn "nonfatal" c.degree <;>
    by_cases h2 : pyIn "non-fatal" c.degree <;>
      by_cases h3 : pyIn "fatal" c.degree <;>
        simp_all

/-- Witness for C5 at concrete degree strings. -/
theorem normalized_degree_characterization_witness :
    (degCase "nonfatal injuries").normalized_degree = Except.ok "non_fatal_injury" ∧
    (degCase "fatal injury").normalized_degree = Except.ok "fatal_injury" :=
  ⟨(normalized_degree_characterization (degCase "nonfatal injuries")).1
      (Or.inl (by decide)),
   (normalized_degree_characterization (degCase "fatal injury")).2.1
      ⟨by decide, by decide, by decide⟩⟩

/-- C2 counterexample: `normalized_degree` is not case-insensitive.  On the
degree `Fatal` the code raises, while on its lower-cased form `fatal` it
returns `fatal_injury`. -/
theorem normalized_degree_not_case_insensitive :
    (degCase "Fatal").normalized_degree = Except.error "Could not find degree of injury" ∧
    (degCase (pyLower "Fatal")).normalized_degree = Except.ok "fatal_injury" := by
  exact ⟨rfl, rfl⟩

/-- C2 amended: degree normalization is case-sensitive.  Whenever the degree
does not contain the lowercase substring `fatal`, `normalized_degree`
raises, even if a differently-cased form such as `Fatal` is present. -/
theorem normalized_degree_case_sensitive (c : AccidentCase)
    (h : pyIn "fatal" c.degree = false) :
    c.normalized_degree = Except.error "Could not find degree of injury" := by
  have h1 : pyIn "nonfatal" c.degree = false := by
    cases hc : pyIn "nonfatal" c.degree
    · rfl
    · rw [pyIn_fatal_of_nonfatal hc] at h; cases h
  have h2 : pyIn "non-fatal" c.degree = false := by
    cases hc : pyIn "non-fatal" c.degree
    · rfl
    · rw [pyIn_fatal_of_hyphen_nonfatal hc] at h; cases h
  unfold AccidentCase.normalized_degree
  rw [h, h1, h2]
  rfl

/-- Witness for the amended C2 at the degree `Fatal`. -/
theorem normalized_degree_case_sensitive_witness :
    pyIn "fatal" (degCase "Fatal").degree = false ∧
    (degCase "Fatal").normalized_degree = Except.error "Could not find degree of injury" :=
  ⟨by decide, normalized_degree_case_sensitive (degCase "Fatal") (by decide)⟩

/-- A first row with empty Source and blank cause and equipment values. -/
def blankRow : Row :=
  { source := ""
    accidentType := ""
    title := ""
    description := ""
    dateCol := some ""
    spaceDateCol := none
    degreeOfInjury := ""
    caseNumber := ""
    accidentCause := ""
    equipment := "" }

/-- C3 counterexample: a first row whose Source is empty does not always make
`read_csv_cases` fail.  When its cause and equipment values are also blank,
the function returns an empty case list without error. -/
theorem read_csv_cases_first_blank_no_error :
    blankRow.source = "" ∧ read_csv_cases [blankRow] = Except.ok [] :=
  ⟨rfl, rfl⟩

/-- C3 amended: `read_csv_cases` fails on a CSV whose first row has an empty
Source value exactly when that row carries a non-empty (after stripping)
cause or equipment value; the failure is the `IndexError` of appending to the
empty case list. -/
theorem read_csv_cases_first_blank_fails (row : Row) (rows : List Row)
    (hs : row.source = "")
    (h : pyStrip row.accidentCause ≠ "" ∨ pyStrip row.equipment ≠ "") :
    read_csv_cases (row :: rows) = Except.error "IndexError: list index out of range" := by
  have hfirst : processRow [] row = Except.error "IndexError: list index out of range" := by
    unfold processRow
    rw [if_neg (by simp [hs])]
    unfold processCE
    by_cases hc : pyStrip row.accidentCause ≠ ""
    · rw [if_pos hc]
      rfl
    · rw [if_neg hc]
      have he : pyStrip row.equipment ≠ "" := by
        rcases h with h | h
        · exact absurd h hc
        · exact h
      show (if pyStrip row.equipment ≠ "" then appendEquipment [] (pyStrip row.equipment)
            else Except.ok []) = _
      rw [if_pos he]
      rfl
  unfold read_csv_cases
  rw [List.foldlM_cons, hfirst, except_error_bind]

/-- A first row with empty Source but a populated cause value. -/
def blankSourceCauseRow : Row :=
  { blankRow with accidentCause := "struck by falling object" }

/-- Witness for the amended C3. -/
theorem read_csv_cases_first_blank_fails_witness :
    read_csv_cases [blankSourceCauseRow] =
      Except.error "IndexError: list index out of range" :=
  read_csv_cases_first_blank_fails blankSourceCauseRow [] rfl (Or.inl (by decide))

/-- Effect of one row on the case it belongs to: append the stripped
non-empty cause and equipment values. -/
def specAppend (c : AccidentCase) (row : Row) : AccidentCase :=
  let c1 :=
    if pyStrip row.accidentCause ≠ "" then
      { c with causes := c.causes ++ [pyStrip row.accidentCause] }
    else c
  if pyStrip row.equipment ≠ "" then
    { c1 with equipments := c1.equipments ++ [pyStrip row.equipment] }
  else c1

/-- A row whose Source value is empty, i.e. a continuation row. -/
def blankSource (row : Row) : Bool :=
  row.source = ""

/-- Group a row list into chunks: each case-starting row together with the
continuation rows that follow it. -/
def splitCases : List Row → List (Row × List Row)
  | [] => []
  | row :: rest =>
      (row, rest.takeWhile blankSource) :: splitCases (rest.dropWhile blankSource)
termination_by l => l.length
decreasing_by
  simp only [List.length_cons]
  exact Nat.lt_succ_of_le (List.Sublist.length_le (List.dropWhile_sublist _))

/-- Specification-side description of one grouped case, following the claim:
the fields come from the starting row, and the causes and equipments lists
collect the stripped non-empty values of all rows of the chunk in order. -/
def buildCase (chunk : Row × List Row) : AccidentCase :=
  (chunk.1 :: chunk.2).foldl specAppend (mkCase chunk.1)

/-- Specification-side description of `read_csv_cases`, following the
claim's words: one case per populated-Source row, in row order. -/
def casesSpec (rows : List Row) : List AccidentCase :=
  (splitCases rows).map buildCase

/-- Appending cause and equipment values via the Python list operations is
the same as `specAppend` on the last case of a non-empty list. -/
theorem processCE_concat (l : List AccidentCase) (c : AccidentCase) (row : Row) :
    processCE (l ++ [c]) row = Except.ok (l ++ [specAppend c row]) := by
  unfold processCE specAppend appendCause appendEquipment
  by_cases h1 : pyStrip row.accidentCause ≠ "" <;>
    by_cases h2 : pyStrip row.equipment ≠ "" <;>
      simp [h1, h2, List.getLast?_concat, List.dropLast_concat]

/-- Folding the loop body over continuation rows only updates the last
case, by `specAppend`, one row at a time. -/
theorem foldlM_blank (follow : List Row) :
    ∀ (init : List AccidentCase) (current : AccidentCase),
      (∀ r ∈ follow, r.source = "") →
      List.foldlM processRow (init ++ [current]) follow =
        Except.ok (init ++ [follow.foldl specAppend current]) := by
  induction follow with
  | nil => intro init current _; rfl
  | cons r rs ih =>
      intro init current hall
      have hr : r.source = "" := hall r (by simp)
      have hstep : processRow (init ++ [current]) r =
          Except.ok (init ++ [specAppend current r]) := by
        unfold processRow
        rw [if_neg (by simp [hr])]
        exact processCE_concat init current r
      rw [List.foldlM_cons, hstep, except_ok_bind, List.foldl_cons]
      exact ih init (specAppend current r) (fun r2 h2 => hall r2 (List.mem_cons_of_mem _ h2))

/-- The first row surviving `dropWhile blankSource` has a populated Source. -/
theorem dropWhile_head_source :
    ∀ (l : List Row) (r : Row) (rest : List Row),
      l.dropWhile blankSource = r :: rest → r.source ≠ "" := by
  intro l
  induction l with
  | nil => intro r rest h; simp [List.dropWhile] at h
  | cons x xs ih =>
      intro r rest h
      by_cases hx : blankSource x
      · rw [List.dropWhile_cons_of_pos hx] at h
        exact ih r rest h
      · rw [List.dropWhile_cons_of_neg hx] at h
        cases h
        simpa [blankSource] using hx

/-- Main refinement loop invariant: starting from any accumulated prefix,
folding the `read_csv_cases` body over rows whose first element starts a
case appends exactly the specification's grouped cases. -/
theorem read_loop_spec :
    ∀ (n : Nat) (rows : List Row), rows.length ≤ n →
      (∀ r rest, rows = r :: rest → r.source ≠ "") →
      ∀ init : List AccidentCase,
        List.foldlM processRow init rows = Except.ok (init ++ casesSpec rows) := by
  intro n
  induction n with
  | zero =>
      intro rows hlen _ init
      have hnil : rows = [] := List.length_eq_zero.mp (Nat.le_zero.mp hlen)
      subst hnil
      simp only [casesSpec, splitCases, List.map_nil, List.append_nil]
      rfl
  | succ n ih =>
      intro rows hlen hhead init
      match rows with
      | [] =>
          simp only [casesSpec, splitCases, List.map_nil, List.append_nil]
          rfl
      | r :: rest =>
          have hr : r.source ≠ "" := hhead r rest rfl
          have hstep : processRow init r =
              Except.ok (init ++ [specAppend (mkCase r) r]) := by
            unfold processRow
            rw [if_pos hr]
            exact processCE_concat init (mkCase r) r
          rw [List.foldlM_cons, hstep, except_ok_bind]
          have hsplit : rest = rest.takeWhile blankSource ++ rest.dropWhile blankSource :=
            (List.takeWhile_append_dropWhile blankSource rest).symm
          have hspec : casesSpec (r :: rest) =
              buildCase (r, rest.takeWhile blankSource) ::
                casesSpec (rest.dropWhile blankSource) := by
            unfold casesSpec
            rw [splitCases]
            rfl
          rw [hspec]
          conv_lhs => rw [hsplit]
          rw [List.foldlM_append]
          have hblank : ∀ r2 ∈ rest.takeWhile blankSource, r2.source = "" := by
            intro r2 h2
            have := List.mem_takeWhile_imp h2
            simpa [blankSource] using this
          rw [foldlM_blank (rest.takeWhile blankSource) init (specAppend (mkCase r) r) hblank,
            except_ok_bind]
          have hlen2 : (rest.dropWhile blankSource).length ≤ n := by
            have h1 : (rest.dropWhile blankSource).length ≤ rest.length :=
              List.Sublist.length_le (List.dropWhile_sublist _)
            have h2 : rest.length ≤ n := by
              simpa [List.length_cons, Nat.succ_le_succ_iff] using hlen
            exact Nat.le_trans h1 h2
          have hhead2 : ∀ r2 rest2, rest.dropWhile blankSource = r2 :: rest2 → r2.source ≠ "" :=
            fun r2 rest2 h2 => dropWhile_head_source rest r2 rest2 h2
          rw [ih (rest.dropWhile blankSource) hlen2 hhead2]
          have hbuild : (rest.takeWhile blankSource).foldl specAppend (specAppend (mkCase r) r) =
              buildCase (r, rest.takeWhile blankSource) := by
            unfold buildCase
            rfl
          rw [hbuild]
          simp

/-- A row carrying no stripped non-empty cause or equipment value leaves its
case unchanged. -/
theorem specAppend_no_values (c : AccidentCase) (row : Row)
    (hc : pyStrip row.accidentCause = "") (he : pyStrip row.equipment = "") :
    specAppend c row = c := by
  unfold specAppend
  rw [if_neg (by simp [he]), if_neg (by simp [hc])]

/-- C4: `read_csv_cases` iterates rows in order.  Whenever the first row has
a populated Source value, the result is exactly the specification grouping
`casesSpec`: each populated-Source row starts a new case with the fields of
that row, and every row contributes its stripped non-empty cause and
equipment values to the most recently started case; a case none of whose
rows carries such a value ends with both lists empty. -/
theorem read_csv_cases_groups (rows : List Row)
    (hhead : ∀ r rest, rows = r :: rest → r.source ≠ "") :
    read_csv_cases rows = Except.ok (casesSpec rows) ∧
    (∀ chunk ∈ splitCases rows,
       (∀ r ∈ chunk.1 :: chunk.2,
          pyStrip r.accidentCause = "" ∧ pyStrip r.equipment = "") →
       (buildCase chunk).causes = [] ∧ (buildCase chunk).equipments = []) := by
  constructor
  · have h := read_loop_spec rows.length rows (Nat.le_refl _) hhead []
    unfold read_csv_cases
    rw [h]
    simp
  · intro chunk _ hblank
    have hfold : ∀ (l : List Row) (c : AccidentCase),
        (∀ r ∈ l, pyStrip r.accidentCause = "" ∧ pyStrip r.equipment = "") →
        l.foldl specAppend c = c := by
      intro l
      induction l with
      | nil => intro c _; rfl
      | cons x xs ih =>
          intro c hall
          rw [List.foldl_cons,
            specAppend_no_values c x (hall x (by simp)).1 (hall x (by simp)).2]
          exact ih c (fun r hr => hall r (List.mem_cons_of_mem _ hr))
    unfold buildCase
    rw [hfold (chunk.1 :: chunk.2) (mkCase chunk.1) hblank]
    exact ⟨rfl, rfl⟩

/-- A case-starting row used in the C4 witness. -/
def startRow : Row :=
  { source := "https://www.osha.gov/ords/imis/accidentsearch"
    accidentType := "fall"
    title := "Worker falls from ladder"
    description := "A worker fell from a ladder."
    dateCol := some "2020-01-01T00:00:00"
    spaceDateCol := none
    degreeOfInjury := "fatal"
    caseNumber := "100"
    accidentCause := "improper use of ladder"
    equipment := "ladder" }

/-- A continuation row used in the C4 witness. -/
def continuationRow : Row :=
  { source := ""
    accidentType := ""
    title := ""
    description := ""
    dateCol := some ""
    spaceDateCol := none
    degreeOfInjury := ""
    caseNumber := ""
    accidentCause := "lack of fall protection"
    equipment := "" }

/-- Witness for C4 on a two-row CSV. -/
theorem read_csv_cases_groups_witness :
    read_csv_cases [startRow, continuationRow] =
      Except.ok (casesSpec [startRow, continuationRow]) :=
  (read_csv_cases_groups [startRow, continuationRow]
    (by
      intro r rest h
      rw [List.cons.injEq] at h
      rw [← h.1]
      decide)).1

/-- An RDF triple: subject, predicate, object, all by URI or literal text. -/
abbrev Triple := String × String × String

/-- The rdflib graph, modelled as the list of triples added so far. -/
abbrev Graph := List Triple

/-- The sso ontology namespace of the script. -/
def sso (s : String) : String :=
  "http://www.semanticweb.org/lanre/ontologies/sso#" ++ s

/-- `rdflib.RDF.type`. -/
def rdfType : String :=
  "http://www.w3.org/1999/02/22-rdf-syntax-ns#type"

/-- `rdflib.OWL.NamedIndividual`. -/
def owlNamedIndividual : String :=
  "http://www.w3.org/2002/07/owl#NamedIndividual"

/-- `read_existing_accident_cases`: the subjects of the graph typed as
`sso#Accident_case` (the SPARQL query of the source). -/
def read_existing_accident_cases (g : Graph) : List String :=
  (g.filter (fun t => decide (t.2.1 = rdfType ∧ t.2.2 = sso "Accident_case"))).map
    (fun t => t.1)

/-- `read_named_individual_uris`: the subjects of the graph typed as
`owl:NamedIndividual`. -/
def read_named_individual_uris (g : Graph) : List String :=
  (g.filter (fun t => decide (t.2.1 = rdfType ∧ t.2.2 = owlNamedIndividual))).map
    (fun t => t.1)

/-- The failure message raised by `assert_uri_exists`, carrying the fuzzy
guess and its confidence. -/
def errorMessage (guess : String) (confidence : Nat) (uri : String) : String :=
  "owl:NamedIndividual with this URI does not exist: " ++ uri ++ "\n" ++
    "Did you mean this?  (" ++ toString confidence ++ "%) --  " ++ guess

/-- `assert_uri_exists` from `main`: identity on URIs present among the
named individuals, error with a fuzzy-match suggestion otherwise.
`extractOne` models the external `fuzzywuzzy.process.extractOne`. -/
def assert_uri_exists (extractOne : String → List String → String × Nat)
    (named : List String) (uri : String) : Except String String :=
  if uri ∈ named then Except.ok uri
  else
    Except.error (errorMessage (extractOne uri named).1 (extractOne uri named).2 uri)

/-- Evaluate `assert_uri_exists` on the object and, on success, add the
triple to the graph; on failure, leave the graph unchanged and record the
error.  This is `g.add((s, p, assert_uri_exists(o)))` of the source. -/
def addChecked (extractOne : String → List String → String × Nat)
    (named : List String) (g : Graph) (s p o : String) : Graph × Option String :=
  match assert_uri_exists extractOne named o with
  | Except.ok o2 => (g ++ [(s, p, o2)], none)
  | Except.error e => (g, some e)

/-- Sequence two graph-building steps, stopping at the first error while
keeping the triples added so far (the Python graph is mutated in place). -/
def thenDo (r : Graph × Option String) (f : Graph → Graph × Option String) :
    Graph × Option String :=
  match r with
  | (g, none) => f g
  | (g, some e) => (g, some e)

/-- Add one checked triple per object URI, in order (the cause and equipment
loops of `main`). -/
def emitObjectList (extractOne : String → List String → String × Nat)
    (named : List String) (g : Graph) (s p : String) (objs : List String) :
    Graph × Option String :=
  objs.foldl (fun r o => thenDo r (fun g2 => addChecked extractOne named g2 s p o)) (g, none)

/-- The Python `AttributeError` raised by `case.date.strip()` when the date
is `None`. -/
def attributeErrorNone : String :=
  "AttributeError: NoneType object has no attribute strip"

/-- The per-case body of the import loop of `main`, after the duplicate
check: add the type, title, optional date, description and source triples,
then the checked accident-type, cause, equipment and degree triples. -/
def emitCase (extractOne : String → List String → String × Nat)
    (named : List String) (g : Graph) (c : AccidentCase) : Graph × Option String :=
  let ref := c.uri
  let g3 := g ++ [(ref, rdfType, owlNamedIndividual), (ref, rdfType, sso "Accident_case"),
    (ref, sso "Title", c.title)]
  match c.date with
  | none => (g3, some attributeErrorNone)
  | some d =>
      let g4 := if pyStrip d ≠ "" then g3 ++ [(ref, sso "Date", d)] else g3
      let g6 := g4 ++ [(ref, sso "Description", c.description), (ref, sso "Source", c.source)]
      thenDo (addChecked extractOne named g6 ref (sso "has_accident_type")
          (sso (snake_case c.type))) fun g7 =>
        thenDo (emitObjectList extractOne named g7 ref (sso "has_accident_cause")
            (c.fixed_causes.map sso)) fun g8 =>
          thenDo (emitObjectList extractOne named g8 ref (sso "involves_the_use_of")
              (c.equipments.map (fun e => sso (snake_case e)))) fun g9 =>
            match c.normalized_degree with
            | Except.error e => (g9, some e)
            | Except.ok deg => addChecked extractOne named g9 ref (sso "resulted_in") (sso deg)

/-- One iteration of the import loop: reject a case whose URI is already an
existing accident case, otherwise emit its triples. -/
def importCase (extractOne : String → List String → String × Nat)
    (existing named : List String) (g : Graph) (c : AccidentCase) :
    Graph × Option String :=
  if c.uri ∈ existing then (g, some ("Already have case uri = " ++ c.uri))
  else emitCase extractOne named g c

/-- The import loop of `main` over all parsed cases. -/
def importLoop (extractOne : String → List String → String × Nat)
    (existing named : List String) (g : Graph) (cases : List AccidentCase) :
    Graph × Option String :=
  cases.foldl (fun r c => thenDo r (fun g2 => importCase extractOne existing named g2 c)) (g, none)

/-- Observable outcome of one run of `main`: the final in-memory graph, the
uncaught exception if any, and the list of files written with their
contents. -/
structure RunResult where
  graph : Graph
  runError : Option String
  fileWrites : List (String × Graph)
deriving DecidableEq

/-- `main`: parse the CSV, index the existing case and named-individual
URIs, run the import loop.  The source contains no serialization call, so
no run ever writes a file: `fileWrites` is always empty, whatever the
`--out` argument holds. -/
def mainModel (extractOne : String → List String → String × Nat)
    (owlGraph : Graph) (csvRows : List Row) (_outPath : String) : RunResult :=
  match read_csv_cases csvRows with
  | Except.error e => { graph := owlGraph, runError := some e, fileWrites := [] }
  | Except.ok cases =>
      let r := importLoop extractOne (read_existing_accident_cases owlGraph)
        (read_named_individual_uris owlGraph) owlGraph cases
      { graph := r.1, runError := r.2, fileWrites := [] }

/-- A string is contained in any string it terminates. -/
theorem pyIn_suffix (a b : String) : pyIn b (a ++ b) = true := by
  rw [pyIn_eq_true_iff, String.data_append]
  exact (List.suffix_append a.data b.data).isInfix

/-- C1: the import never writes a file.  Whatever the arguments and however
the run ends, `main` only mutates the in-memory graph and prints messages;
no serialization of the extended graph to the `--out` path exists in the
source, so the list of file writes of every run is empty. -/
theorem mainModel_never_writes (extractOne : String → List String → String × Nat)
    (owlGraph : Graph) (csvRows : List Row) (outPath : String) :
    (mainModel extractOne owlGraph csvRows outPath).fileWrites = [] := by
  unfold mainModel
  cases read_csv_cases csvRows <;> rfl

/-- C6: every triple whose object is a generated individual URI goes through
`assert_uri_exists` before insertion.  If the object URI is among the indexed
NamedIndividual URIs, the assertion returns it unchanged and the triple is
appended; otherwise the graph is left unchanged and the recorded error
message contains the fuzzy-match guess as a suggestion. -/
theorem reference_validation (extractOne : String → List String → String × Nat)
    (named : List String) (g : Graph) (s p o : String) :
    (o ∈ named →
       assert_uri_exists extractOne named o = Except.ok o ∧
       addChecked extractOne named g s p o = (g ++ [(s, p, o)], none)) ∧
    (o ∉ named →
       addChecked extractOne named g s p o =
         (g, some (errorMessage (extractOne o named).1 (extractOne o named).2 o)) ∧
       pyIn (extractOne o named).1
         (errorMessage (extractOne o named).1 (extractOne o named).2 o) = true) := by
  constructor
  · intro h
    have ha : assert_uri_exists extractOne named o = Except.ok o := by
      unfold assert_uri_exists
      rw [if_pos h]
    refine ⟨ha, ?_⟩
    unfold addChecked
    rw [ha]
  · intro h
    have ha : assert_uri_exists extractOne named o =
        Except.error (errorMessage (extractOne o named).1 (extractOne o named).2 o) := by
      unfold assert_uri_exists
      rw [if_neg h]
    constructor
    · unfold addChecked
      rw [ha]
    · unfold errorMessage
      exact pyIn_suffix _ _

/-- A stand-in for the external fuzzy matcher in concrete witnesses. -/
def extractOneStub (_uri : String) (named : List String) : String × Nat :=
  (named.headD "", 50)

/-- Witness for C6: a hit is the identity and appends the triple, a miss
leaves the graph unchanged and reports the guess. -/
theorem reference_validation_witness :
    (assert_uri_exists extractOneStub [sso "fall"] (sso "fall") = Except.ok (sso "fall") ∧
     addChecked extractOneStub [sso "fall"] [] "s" "p" (sso "fall") =
       ([("s", "p", sso "fall")], none)) ∧
    addChecked extractOneStub [sso "fall"] [] "s" "p" (sso "falll") =
      ([], some (errorMessage (sso "fall") 50 (sso "falll"))) :=
  ⟨(reference_validation extractOneStub [sso "fall"] [] "s" "p" (sso "fall")).1 (by decide),
   ((reference_validation extractOneStub [sso "fall"] [] "s" "p" (sso "falll")).2 (by decide)).1⟩

/-- C7: a case whose URI is already among the Accident_case individuals of
the base graph is rejected with the duplicate error before any of its
triples is added: the graph comes back unchanged. -/
theorem duplicate_case_rejected (extractOne : String → List String → String × Nat)
    (base : Graph) (named : List String) (g : Graph) (c : AccidentCase)
    (h : c.uri ∈ read_existing_accident_cases base) :
    importCase extractOne (read_existing_accident_cases base) named g c =
      (g, some ("Already have case uri = " ++ c.uri)) := by
  unfold importCase
  rw [if_pos h]

/-- An accident case numbered 100, duplicating `dupBase` below. -/
def dupCase : AccidentCase :=
  { degCase "fatal" with case_number := "100" }

/-- A base graph already holding case 100 as an Accident_case individual. -/
def dupBase : Graph :=
  [(sso "100", rdfType, sso "Accident_case")]

/-- Witness for C7. -/
theorem duplicate_case_rejected_witness :
    importCase extractOneStub (read_existing_accident_cases dupBase) [] [] dupCase =
      ([], some ("Already have case uri = " ++ dupCase.uri)) :=
  duplicate_case_rejected extractOneStub dupBase [] [] dupCase (by decide)

/-- C8: when the CSV parses to zero new cases, the import loop adds no
triples: the run's final graph is the parsed base graph and no error is
reported. -/
theorem import_zero_cases_identity (extractOne : String → List String → String × Nat)
    (owlGraph : Graph) (csvRows : List Row) (outPath : String)
    (h : read_csv_cases csvRows = Except.ok []) :
    (mainModel extractOne owlGraph csvRows outPath).graph = owlGraph ∧
    (mainModel extractOne owlGraph csvRows outPath).runError = none := by
  unfold mainModel
  rw [h]
  exact ⟨rfl, rfl⟩

/-- Witness for C8 on an empty CSV. -/
theorem import_zero_cases_identity_witness :
    (mainModel extractOneStub [] [] "out.owl").graph = ([] : Graph) ∧
    (mainModel extractOneStub [] [] "out.owl").runError = none :=
  import_zero_cases_identity extractOneStub [] [] "out.owl" rfl

/-- Reduction of `thenDo` after a successful step. -/
theorem thenDo_none (g : Graph) (f : Graph → Graph × Option String) :
    thenDo (g, none) f = f g := rfl

/-- Reduction of `thenDo` after a failed step. -/
theorem thenDo_some (g : Graph) (e : String) (f : Graph → Graph × Option String) :
    thenDo (g, some e) f = (g, some e) := rfl

/-- `addChecked` on an object URI present among the named individuals
appends the triple. -/
theorem addChecked_mem (extractOne : String → List String → String × Nat)
    (named : List String) (g : Graph) (s p o : String) (h : o ∈ named) :
    addChecked extractOne named g s p o = (g ++ [(s, p, o)], none) := by
  unfold addChecked assert_uri_exists
  rw [if_pos h]

/-- `emitObjectList` on object URIs that are all present appends one triple
per object, in order. -/
theorem emitObjectList_ok (extractOne : String → List String → String × Nat)
    (named : List String) (s p : String) (objs : List String) (g : Graph)
    (hall : ∀ o ∈ objs, o ∈ named) :
    emitObjectList extractOne named g s p objs =
      (g ++ objs.map (fun o => (s, p, o)), none) := by
  induction objs generalizing g with
  | nil => simp [emitObjectList]
  | cons o os ih =>
      unfold emitObjectList at *
      rw [List.foldl_cons]
      have ho : o ∈ named := hall o (by simp)
      have hstep : thenDo ((g, none) : Graph × Option String)
          (fun g2 => addChecked extractOne named g2 s p o) =
          (g ++ [(s, p, o)], none) := by
        rw [thenDo_none]
        exact addChecked_mem extractOne named g s p o ho
      rw [hstep, ih (g ++ [(s, p, o)]) (fun o2 h2 => hall o2 (List.mem_cons_of_mem _ h2))]
      simp

/-- All triples `main` adds for one fully valid case, in insertion order. -/
def caseTriples (c : AccidentCase) (d deg : String) : Graph :=
  [(c.uri, rdfType, owlNamedIndividual), (c.uri, rdfType, sso "Accident_case"),
   (c.uri, sso "Title", c.title)]
  ++ (if pyStrip d ≠ "" then [(c.uri, sso "Date", d)] else [])
  ++ [(c.uri, sso "Description", c.description), (c.uri, sso "Source", c.source),
      (c.uri, sso "has_accident_type", sso (snake_case c.type))]
  ++ (c.fixed_causes.map sso).map (fun u => (c.uri, sso "has_accident_cause", u))
  ++ (c.equipments.map (fun e => sso (snake_case e))).map
      (fun u => (c.uri, sso "involves_the_use_of", u))
  ++ [(c.uri, sso "resulted_in", sso deg)]

/-- A case all of whose referenced individual URIs exist and whose date is a
string emits exactly `caseTriples`, with no error. -/
theorem emitCase_ok (extractOne : String → List String → String × Nat)
    (named : List String) (g : Graph) (c : AccidentCase) (d deg : String)
    (hd : c.date = some d)
    (htype : sso (snake_case c.type) ∈ named)
    (hcauses : ∀ u ∈ c.fixed_causes.map sso, u ∈ named)
    (hequips : ∀ u ∈ c.equipments.map (fun e => sso (snake_case e)), u ∈ named)
    (hdeg : c.normalized_degree = Except.ok deg)
    (hdegm : sso deg ∈ named) :
    emitCase extractOne named g c = (g ++ caseTriples c d deg, none) := by
  simp only [emitCase, hd]
  rw [addChecked_mem _ _ _ _ _ _ htype]
  simp only [thenDo_none]
  rw [emitObjectList_ok _ _ _ _ _ _ hcauses]
  simp only [thenDo_none]
  rw [emitObjectList_ok _ _ _ _ _ _ hequips]
  simp only [thenDo_none]
  simp only [hdeg]
  rw [addChecked_mem _ _ _ _ _ _ hdegm]
  by_cases hdate : pyStrip d ≠ "" <;>
    simp [caseTriples, hdate, List.append_assoc]

/-- Validity of one case against the indexed named individuals: its date is
the string `d`, every referenced individual URI exists, and its degree
normalizes to `deg`, which also exists. -/
def caseValid (named : List String) (c : AccidentCase) (d deg : String) : Prop :=
  c.date = some d ∧
  sso (snake_case c.type) ∈ named ∧
  (∀ u ∈ c.fixed_causes.map sso, u ∈ named) ∧
  (∀ u ∈ c.equipments.map (fun e => sso (snake_case e)), u ∈ named) ∧
  c.normalized_degree = Except.ok deg ∧
  sso deg ∈ named

/-- C9: the duplicate guard consults only the pre-loop index of existing
Accident_case URIs and that index is never extended during the loop: two
valid CSV cases sharing a case number absent from the base graph are both
processed, each emitting its triples, with no duplicate error. -/
theorem duplicate_guard_static (extractOne : String → List String → String × Nat)
    (existing named : List String) (g : Graph) (c1 c2 : AccidentCase)
    (d1 deg1 d2 deg2 : String)
    (hnum : c1.case_number = c2.case_number)
    (hne : c1.uri ∉ existing)
    (h1 : caseValid named c1 d1 deg1) (h2 : caseValid named c2 d2 deg2) :
    importLoop extractOne existing named g [c1, c2] =
      (g ++ caseTriples c1 d1 deg1 ++ caseTriples c2 d2 deg2, none) := by
  obtain ⟨hd1, ht1, hc1, he1, hg1, hm1⟩ := h1
  obtain ⟨hd2, ht2, hc2, he2, hg2, hm2⟩ := h2
  have huri : c2.uri = c1.uri := by
    unfold AccidentCase.uri
    rw [hnum]
  have hne2 : c2.uri ∉ existing := by
    rw [huri]
    exact hne
  have e1 : importCase extractOne existing named g c1 = (g ++ caseTriples c1 d1 deg1, none) := by
    unfold importCase
    rw [if_neg hne]
    exact emitCase_ok extractOne named g c1 d1 deg1 hd1 ht1 hc1 he1 hg1 hm1
  have e2 : importCase extractOne existing named (g ++ caseTriples c1 d1 deg1) c2 =
      (g ++ caseTriples c1 d1 deg1 ++ caseTriples c2 d2 deg2, none) := by
    unfold importCase
    rw [if_neg hne2]
    exact emitCase_ok extractOne named (g ++ caseTriples c1 d1 deg1) c2 d2 deg2
      hd2 ht2 hc2 he2 hg2 hm2
  unfold importLoop
  simp only [List.foldl_cons, List.foldl_nil]
  rw [thenDo_none, e1, thenDo_none, e2]

/-- A valid case numbered 200 used twice in the C9 witness. -/
def twinCase : AccidentCase :=
  { source := "src"
    title := "t"
    description := "desc"
    date := some "2020-01-01T00:00:00"
    type := "fall"
    degree := "fatal"
    case_number := "200"
    causes := []
    equipments := [] }

/-- The named individuals required by `twinCase`. -/
def twinNamed : List String :=
  [sso "fall", sso "fatal_injury"]

/-- Witness for C9: the same case number imported twice against an empty
base index raises no duplicate error and emits both triple blocks. -/
theorem duplicate_guard_static_witness :
    importLoop extractOneStub [] twinNamed []
        [twinCase, twinCase] =
      (([] : Graph) ++ caseTriples twinCase "2020-01-01T00:00:00" "fatal_injury" ++
        caseTriples twinCase "2020-01-01T00:00:00" "fatal_injury", none) :=
  duplicate_guard_static extractOneStub [] twinNamed [] twinCase twinCase
    "2020-01-01T00:00:00" "fatal_injury" "2020-01-01T00:00:00" "fatal_injury"
    rfl (by decide)
    ⟨rfl, by decide, by decide, by decide, rfl, by decide⟩
    ⟨rfl, by decide, by decide, by decide, rfl, by decide⟩

/-- C10: a case-starting row with an empty Date value in a CSV without the
leading-space Date column yields a case whose date is Python `None`; triple
emission on such a case stops with the `AttributeError` of `None.strip()`
rather than treating the date as absent, and emission succeeds only for
cases whose date is a string. -/
theorem missing_date_attribute_error (extractOne : String → List String → String × Nat)
    (named : List String) (g : Graph) (row : Row)
    (hs : row.source ≠ "") (hd : row.dateCol = some "") (hsd : row.spaceDateCol = none) :
    ∃ c : AccidentCase,
      read_csv_cases [row] = Except.ok [c] ∧ c.date = none ∧
      (emitCase extractOne named g c).2 = some attributeErrorNone ∧
      (∀ c2 : AccidentCase, (emitCase extractOne named g c2).2 = none → c2.date.isSome) := by
  have hdate : (specAppend (mkCase row) row).date = none := by
    have h1 : (specAppend (mkCase row) row).date = (mkCase row).date := by
      unfold specAppend
      by_cases a : pyStrip row.accidentCause ≠ "" <;>
        by_cases b : pyStrip row.equipment ≠ "" <;> simp [a, b]
    rw [h1]
    show pyOr row.dateCol row.spaceDateCol = none
    rw [hd, hsd]
    rfl
  refine ⟨specAppend (mkCase row) row, ?_, hdate, ?_, ?_⟩
  · unfold read_csv_cases
    rw [List.foldlM_cons]
    have hone : processRow [] row = Except.ok ([] ++ [specAppend (mkCase row) row]) := by
      unfold processRow
      rw [if_pos hs]
      exact processCE_concat [] (mkCase row) row
    rw [hone, except_ok_bind]
    rfl
  · simp [emitCase, hdate]
  · intro c2 h2
    cases hc2 : c2.date with
    | some d => rfl
    | none => simp [emitCase, hc2] at h2

/-- A case-starting row with an empty Date value and no leading-space Date
column. -/
def dateRow : Row :=
  { source := "src2"
    accidentType := "fall"
    title := "t"
    description := "d"
    dateCol := some ""
    spaceDateCol := none
    degreeOfInjury := "fatal"
    caseNumber := "300"
    accidentCause := ""
    equipment := "" }

/-- Witness for C10 on `dateRow`. -/
theorem missing_date_attribute_error_witness :
    ∃ c : AccidentCase,
      read_csv_cases [dateRow] = Except.ok [c] ∧ c.date = none ∧
      (emitCase extractOneStub [] [] c).2 = some attributeErrorNone ∧
      (∀ c2 : AccidentCase, (emitCase extractOneStub [] [] c2).2 = none → c2.date.isSome) :=
  missing_date_attribute_error extractOneStub [] [] dateRow (by decide) rfl rfl
